import Mathlib

/-!
Verification of the MultiTool web application against its specification.

Shallow embedding of the claim-relevant code:
* the PDF-to-DOCX text-layout heuristic of the converter page
  (line grouping by vertical position, per-line sorting by horizontal
  position, gap-based tab insertion, vertical-gap-based paragraph spacing);
* the password generator (`generatePassword`);
* the API client (`compressPdf` of `multitool.api.ts` together with
  `createAuthHeaders` of the auth utilities);
* the compression-statistics reduction computation of both compressor pages;
* the `onDrop` file-validation handlers and the click-triggered processing
  guards of the PDF pages;
* the download-filename derivation (JavaScript `String.replace` with a
  string pattern, which replaces the first occurrence only).

JavaScript numbers are modelled as rationals (ℚ); JavaScript strings as
Lean `String`; the DOM/async layer is modelled as explicit state passing
with an explicit list of emitted processing calls.
-/

/-! ### JavaScript primitives used by the embedded code -/

/-- JavaScript `Math.abs` on numbers (modelled on ℚ). -/
def mathAbs (q : ℚ) : ℚ := if q < 0 then -q else q

/-- JavaScript `String.prototype.trim`: drop whitespace from both ends. -/
def jsTrim (s : String) : String :=
  ⟨((s.data.dropWhile Char.isWhitespace).reverse.dropWhile Char.isWhitespace).reverse⟩

/-- JavaScript string indexing `s[i]` as it behaves under string
concatenation: an in-range index yields the one-character string, an
out-of-range (or negative) index yields `undefined`, which `+=` coerces to
the string `"undefined"`. -/
def charAtI (s : String) (i : Int) : String :=
  if i < 0 then "undefined"
  else
    match s.data.get? i.toNat with
    | some c => String.singleton c
    | none => "undefined"

/-- Whether `pat` starts the list `s` (Boolean). -/
def startsWithL : List Char → List Char → Bool
  | [], _ => true
  | _ :: _, [] => false
  | p :: ps, c :: cs => p == c && startsWithL ps cs

/-- JavaScript `String.prototype.replace` with a string pattern on char
lists: replaces the first (leftmost) occurrence of `pat` only. -/
def replaceFirstList (pat repl : List Char) : List Char → List Char
  | [] => if startsWithL pat ([] : List Char) then repl else []
  | c :: rest =>
    if startsWithL pat (c :: rest) then repl ++ (c :: rest).drop pat.length
    else c :: replaceFirstList pat repl rest

/-- JavaScript `s.replace(pat, repl)` for a string pattern. -/
def jsReplace (s pat repl : String) : String :=
  ⟨replaceFirstList pat.data repl.data s.data⟩

/-- Whether `pat` occurs as a contiguous substring of `s` (Boolean). -/
def hasSub (pat : List Char) : List Char → Bool
  | [] => startsWithL pat ([] : List Char)
  | c :: rest => startsWithL pat (c :: rest) || hasSub pat rest

/-! ### PDF-to-DOCX converter: text fragments and line reconstruction

Source: the `convertPdf` function of the PDF-to-DOCX converter page
(PdfConverter component, layout-preserving variant).  A text fragment is a
PDF.js text item; only the fields the embedded code reads are carried:
`transform[4]` (x), `transform[5]` (y), `width` and `str`. -/

structure Frag where
  x : ℚ
  y : ℚ
  width : ℚ
  str : String
deriving DecidableEq

/-- Loop state of the grouping `forEach`: remaining items, `currentY`
(initially the sentinel `-1`), and `currentLineItems`.  Translates

```
textItems.forEach((item) => {
  const y = item.transform[5];
  if (currentY === -1 || Math.abs(y - currentY) > 2) {
    if (currentLineItems.length > 0) lines.push([...currentLineItems]);
    currentLineItems = [item];
    currentY = y;
  } else {
    currentLineItems.push(item);
  }
});
if (currentLineItems.length > 0) lines.push(currentLineItems);
``` -/
def groupGo : List Frag → ℚ → List Frag → List (List Frag)
  | [], _, cur => if cur = [] then [] else [cur]
  | item :: rest, currentY, cur =>
    if currentY = -1 ∨ mathAbs (item.y - currentY) > 2 then
      if cur = [] then groupGo rest item.y [item]
      else cur :: groupGo rest item.y [item]
    else
      groupGo rest currentY (cur ++ [item])

/-- Grouping of a page's text items into lines by Y position. -/
def groupLines (items : List Frag) : List (List Frag) :=
  groupGo items (-1) []

/-- Modelled from the claim wording (tolerance-based grouping with no
sentinel): a fragment joins the current line exactly when the absolute
difference between its vertical coordinate and the vertical coordinate of
the line's first fragment is at most 2; otherwise a new line starts. -/
def claimGroupGo : List Frag → ℚ → List Frag → List (List Frag)
  | [], _, cur => [cur]
  | item :: rest, firstY, cur =>
    if mathAbs (item.y - firstY) ≤ 2 then claimGroupGo rest firstY (cur ++ [item])
    else cur :: claimGroupGo rest item.y [item]

/-- Modelled from the claim wording: grouping of fragments into lines by
vertical tolerance 2, measured against each line's first fragment. -/
def claimGroup : List Frag → List (List Frag)
  | [] => []
  | item :: rest => claimGroupGo rest item.y [item]

/-- Comparator used by `line.sort((a, b) => a.transform[4] - b.transform[4])`. -/
def fragLe (a b : Frag) : Prop := a.x ≤ b.x

instance : DecidableRel fragLe := fun a b => inferInstanceAs (Decidable (a.x ≤ b.x))

instance : IsTotal Frag fragLe := ⟨fun a b => le_total a.x b.x⟩

instance : IsTrans Frag fragLe := ⟨fun _ _ _ hab hbc => le_trans hab hbc⟩

/-- In-place sort of a line by X position (a stable sort, as required of
`Array.prototype.sort` by the JavaScript standard). -/
def sortLine (line : List Frag) : List Frag := List.insertionSort fragLe line

/-- Loop state of the text-assembly `forEach`: remaining items, `idx`,
`lastX` (initially the sentinel `-1`) and the accumulated `lineText`.
Translates

```
line.forEach((item, idx) => {
  const currentX = item.transform[4];
  if (lastX !== -1 && currentX - lastX > 20) {
    lineText += "\t";
  } else if (idx > 0) {
    lineText += " ";
  }
  lineText += item.str;
  lastX = currentX + (item.width || 0);
});
``` -/
def buildGo : List Frag → Nat → ℚ → String → String
  | [], _, _, acc => acc
  | item :: rest, idx, lastX, acc =>
    let sep : String :=
      if lastX ≠ -1 ∧ item.x - lastX > 20 then "\t"
      else if 0 < idx then " " else ""
    buildGo rest (idx + 1) (item.x + item.width) (acc ++ sep ++ item.str)

/-- Assembly of a (sorted) line's text with gap-based tab insertion. -/
def buildLineText (line : List Frag) : String := buildGo line 0 (-1) ""

/-- Modelled from the claim wording (separator insertion with no
sentinel): between consecutive fragments, a tab when the horizontal gap
between the end of the previous fragment (x plus width) and the start of
the next exceeds 20, otherwise a single space. -/
def claimBuildGo : List Frag → ℚ → String → String
  | [], _, acc => acc
  | item :: rest, lastEnd, acc =>
    let sep : String := if item.x - lastEnd > 20 then "\t" else " "
    claimBuildGo rest (item.x + item.width) (acc ++ sep ++ item.str)

/-- Modelled from the claim wording: line text assembled with a tab after
every gap above 20 and a single space before every other non-first
fragment. -/
def claimBuildText : List Frag → String
  | [] => ""
  | item :: rest => claimBuildGo rest (item.x + item.width) item.str

/-- Fallback fragment used to read `line[0]` of a line already known to be
nonempty. -/
def defaultFrag : Frag := ⟨0, 0, 0, ""⟩

/-- A produced DOCX paragraph, projected to the claim-relevant outputs:
its text and its `spacing.after` value. -/
structure Para where
  text : String
  spacingAfter : Nat
deriving DecidableEq

/-- Per-line paragraph emission of `convertPdf`: empty lines are skipped,
each remaining line is sorted by X, its text assembled and trimmed, blank
lines are skipped, and the paragraph spacing is chosen from the vertical
gap to the (not yet sorted) next line:

```
let spacingAfter = 100;
if (lineIndex < lines.length - 1) {
  const nextLine = lines[lineIndex + 1];
  if (nextLine.length > 0) {
    const currentLineY = line[0].transform[5];
    const nextLineY = nextLine[0].transform[5];
    const gap = Math.abs(currentLineY - nextLineY);
    if (gap > 20) spacingAfter = 200;
    if (gap > 40) spacingAfter = 300;
  }
}
```

`line[0]` reads the just-sorted current line; `nextLine[0]` reads the next
line before it is itself sorted.  Title/page-header paragraphs and the
alignment/bold/size attributes are not claim-relevant and are omitted. -/
def convertLines : List (List Frag) → List Para
  | [] => []
  | line :: rest =>
    if line = [] then convertLines rest
    else
      let sorted := sortLine line
      let text := jsTrim (buildLineText sorted)
      if text = "" then convertLines rest
      else
        let spacingAfter : Nat := 100
        let spacingAfter : Nat :=
          match rest with
          | [] => spacingAfter
          | nextLine :: _ =>
            if nextLine = [] then spacingAfter
            else
              let currentLineY := (sorted.headD defaultFrag).y
              let nextLineY := (nextLine.headD defaultFrag).y
              let gap := mathAbs (currentLineY - nextLineY)
              let s1 : Nat := if gap > 20 then 200 else spacingAfter
              if gap > 40 then 300 else s1
        ⟨text, spacingAfter⟩ :: convertLines rest

/-- Full per-page pipeline of the claim-relevant outputs: group, then emit
line paragraphs. -/
def convertPage (items : List Frag) : List Para :=
  convertLines (groupLines items)

/-- Modelled from the claim wording: the paragraph spacing of a line is
100 when the vertical gap to the next line's first fragment is at most 20,
200 when it is greater than 20 and at most 40, 300 when it is greater than
40, and 100 for a line with no following line. -/
def claimSpacing (line : List Frag) (rest : List (List Frag)) : Nat :=
  match rest with
  | [] => 100
  | nextLine :: _ =>
    if nextLine = [] then 100
    else
      let gap := mathAbs (((sortLine line).headD defaultFrag).y - (nextLine.headD defaultFrag).y)
      if gap ≤ 20 then 100 else if gap ≤ 40 then 200 else 300

/-! ### Password generator

Source: `generatePassword` of the PasswordGenerator page. -/

structure PasswordOptions where
  length : Nat
  uppercase : Bool
  lowercase : Bool
  numbers : Bool
  symbols : Bool
  easyToSay : Bool
  easyToRead : Bool
deriving DecidableEq

/-- Lowercase character class, with the easy-to-read variant. -/
def lowercaseChars (easyToRead : Bool) : String :=
  if easyToRead then "abcdefghjkmnpqrstuvwxyz" else "abcdefghijklmnopqrstuvwxyz"

/-- Uppercase character class, with the easy-to-read variant. -/
def uppercaseChars (easyToRead : Bool) : String :=
  if easyToRead then "ABCDEFGHJKLMNPQRSTUVWXYZ" else "ABCDEFGHIJKLMNOPQRSTUVWXYZ"

/-- Digit character class, with the easy-to-read variant. -/
def numberChars (easyToRead : Bool) : String :=
  if easyToRead then "23456789" else "0123456789"

/-- Symbol character class, with the easy-to-read variant. -/
def symbolChars (easyToRead : Bool) : String :=
  if easyToRead then "!@#$%^&*" else "!@#$%^&*()_+-=[]\x7b\x7d|;:,.<>?"

/-- Membership test of the regex character class `[0OoIl1]`. -/
def hardToSayChar (c : Char) : Bool :=
  c == '0' || c == 'O' || c == 'o' || c == 'I' || c == 'l' || c == '1'

/-- `charset.replace(/[0OoIl1]/g, "")` when `easyToSay` is set. -/
def applyEasyToSay (easyToSay : Bool) (s : String) : String :=
  if easyToSay then ⟨s.data.filter (fun c => !hardToSayChar c)⟩ else s

/-- The character set built by `generatePassword`, as a function of the
six Boolean toggles. -/
def buildCharsetB (lc uc nm sy say read : Bool) : String :=
  let cs : String := ""
  let cs := if lc then cs ++ lowercaseChars read else cs
  let cs := if uc then cs ++ uppercaseChars read else cs
  let cs := if nm then cs ++ numberChars read else cs
  let cs := if sy then cs ++ symbolChars read else cs
  applyEasyToSay say cs

/-- The character set built by `generatePassword` from an option record. -/
def buildCharset (o : PasswordOptions) : String :=
  buildCharsetB o.lowercase o.uppercase o.numbers o.symbols o.easyToSay o.easyToRead

/-- The generation loop
`for (let i = 0; i < options.length; i++) newPassword += charset[Math.floor(Math.random() * charset.length)]`,
with the values of `Math.random()` supplied as the sequence `rand`.
The first argument counts the remaining iterations, the second is `i`. -/
def genLoop (charset : String) (rand : Nat → ℚ) : Nat → Nat → String → String
  | 0, _, acc => acc
  | n + 1, i, acc =>
    genLoop charset rand n (i + 1)
      (acc ++ charAtI charset ⌊rand i * (charset.data.length : ℚ)⌋)

/-- The password generator, with the random source made explicit.  The
resulting string is the value passed to `setPassword`. -/
def generatePassword (o : PasswordOptions) (rand : Nat → ℚ) : String :=
  let charset := buildCharset o
  if charset.data.length = 0 then "Please select at least one character type"
  else genLoop charset rand o.length 0 ""

/-! ### API client

Source: `compressPdf` of `multitool.api.ts` and `createAuthHeaders` /
`createAuthorizationHeader` of the auth utilities. -/

/-- An uploaded browser `File`: the fields the embedded code reads. -/
structure FileV where
  name : String
  type : String
  size : Nat
deriving DecidableEq

/-- A browser `Blob`, reduced to its size. -/
structure Blob where
  size : Nat
deriving DecidableEq

/-- `createAuthorizationHeader` of the auth utilities. -/
def createAuthorizationHeader (token : String) : String := "Bearer " ++ token

/-- `createAuthHeaders` of the auth utilities (`HTTP_HEADERS.AUTHORIZATION`
is `"Authorization"`, `HTTP_HEADERS.CONTENT_TYPE` is `"Content-Type"`). -/
def createAuthHeaders (token : String) (includeContentType : Bool) : List (String × String) :=
  let headers := [("Authorization", createAuthorizationHeader token)]
  if includeContentType then headers ++ [("Content-Type", "application/json")] else headers

/-- A field of the multipart `FormData` body. -/
inductive FormField where
  | fileField (name : String) (file : FileV)
  | textField (name : String) (value : String)
deriving DecidableEq

/-- The single HTTP request issued by the API client's `compressPdf`. -/
structure HttpRequest where
  url : String
  method : String
  headers : List (String × String)
  body : List FormField
deriving DecidableEq

/-- The claim-relevant observables of a `fetch` response. -/
structure HttpResponse where
  ok : Bool
  status : Nat
  statusText : String
  bodyText : String
  bodyBlob : Blob
deriving DecidableEq

/-- `ApiError` of `multitool.api.ts`. -/
structure ApiError where
  message : String
  status : Nat
  statusText : String
deriving DecidableEq

/-- `PdfCompressRequest` of `multitool.api.ts`. -/
structure PdfCompressRequest where
  file : FileV
  compressionLevel : Int
  token : String

/-- `PdfCompressResponse` of `multitool.api.ts`. -/
structure PdfCompressResponse where
  blob : Blob
  originalSize : Nat
  compressedSize : Nat
deriving DecidableEq

/-- `ENDPOINTS.PDF_COMPRESS`. -/
def pdfCompressEndpoint : String := "/api/pdf/v2/compress"

/-- The request constructed and sent (once, by a single `fetch`) by the
API client's `compressPdf`; `apiBase` is `API_BASE_URL`. -/
def compressPdfRequest (apiBase : String) (params : PdfCompressRequest) : HttpRequest :=
  { url := apiBase ++ pdfCompressEndpoint
    method := "POST"
    headers := createAuthHeaders params.token false
    body := [FormField.fileField "file" params.file,
             FormField.textField "compressionLevel" (toString params.compressionLevel)] }

/-- The result of the API client's `compressPdf` given the response to its
request: a thrown `ApiError` on a non-ok response, otherwise the response
blob together with the size statistics. -/
def compressPdfResult (params : PdfCompressRequest) (response : HttpResponse) :
    Except ApiError PdfCompressResponse :=
  if response.ok then
    Except.ok
      { blob := response.bodyBlob
        originalSize := params.file.size
        compressedSize := response.bodyBlob.size }
  else
    Except.error
      { message := "Failed to compress PDF: " ++ toString response.status ++ " "
          ++ response.statusText ++ ". " ++ response.bodyText
        status := response.status
        statusText := response.statusText }

/-! ### Compression statistics

Source: the `compressPdf` handlers of both compressor pages (the pdf-lib
client-side variant and the backend/Auth0 variant) compute the identical
reduction statistic before storing it:

```
const reduction = ((originalSize - compressedSize) / originalSize) * 100;
setCompressionStats({ ..., reduction: Math.max(0, reduction) });
``` -/

/-- The raw size-reduction percentage. -/
def compressionReduction (originalSize compressedSize : ℚ) : ℚ :=
  ((originalSize - compressedSize) / originalSize) * 100

/-- The reduction value actually stored for display (`Math.max(0, ...)`). -/
def storedReduction (originalSize compressedSize : ℚ) : ℚ :=
  max 0 (compressionReduction originalSize compressedSize)

/-! ### PDF page state machines: file validation and processing guards

Source: the `onDrop` handlers and operation triggers of the converter page
and of both compressor pages.  Each step consumes a UI event and returns
the new component state together with the list of files handed to the
processing pipeline by that step (reading the file and parsing /
converting / compressing it); `onDrop` never emits any. -/

structure ConverterState where
  pdfFile : Option FileV
  isConverting : Bool
  convertedDocx : Option Blob
  error : String
  pageCount : Nat
deriving DecidableEq

/-- Initial converter state (`useState` initializers). -/
def converterInit : ConverterState := ⟨none, false, none, "", 0⟩

/-- The converter page's `onDrop` handler. -/
def onDropConverter (acceptedFiles : List FileV) (s : ConverterState) : ConverterState :=
  match acceptedFiles with
  | [] => s
  | file :: _ =>
    if file.type = "application/pdf" then
      { s with pdfFile := some file, error := "", convertedDocx := none, pageCount := 0 }
    else
      { s with error := "Please upload a valid PDF file" }

inductive ConverterEvent where
  | drop (acceptedFiles : List FileV)
  | clickConvert

/-- One converter UI step.  `clickConvert` models the synchronous prefix
of `convertPdf`: the `if (!pdfFile) return` guard, the state resets, and
the hand-off of the selected file to the parsing/serialization pipeline. -/
def converterStep : ConverterEvent → ConverterState → ConverterState × List FileV
  | ConverterEvent.drop files, s => (onDropConverter files s, [])
  | ConverterEvent.clickConvert, s =>
    match s.pdfFile with
    | none => (s, [])
    | some f => ({ s with isConverting := true, error := "", convertedDocx := none }, [f])

/-- Fold one event into an accumulated (state, emitted calls) pair. -/
def converterFold (acc : ConverterState × List FileV) (e : ConverterEvent) :
    ConverterState × List FileV :=
  let r := converterStep e acc.1
  (r.1, acc.2 ++ r.2)

/-- Run of the converter page from its initial state over a sequence of
UI events. -/
def converterRun (events : List ConverterEvent) : ConverterState × List FileV :=
  events.foldl converterFold (converterInit, [])

/-- Compression statistics record stored by the compressor pages. -/
structure CompressionStats where
  originalSize : Nat
  compressedSize : Nat
  reduction : ℚ
deriving DecidableEq

structure CompressorState where
  pdfFile : Option FileV
  isCompressing : Bool
  compressedPdf : Option Blob
  error : String
  compressionStats : Option CompressionStats
deriving DecidableEq

/-- Initial compressor state (`useState` initializers). -/
def compressorInit : CompressorState := ⟨none, false, none, "", none⟩

/-- The compressor pages' `onDrop` handler (identical in both variants). -/
def onDropCompressor (acceptedFiles : List FileV) (s : CompressorState) : CompressorState :=
  match acceptedFiles with
  | [] => s
  | file :: _ =>
    if file.type = "application/pdf" then
      { s with pdfFile := some file, error := "", compressedPdf := none,
               compressionStats := none }
    else
      { s with error := "Please upload a valid PDF file" }

inductive CompressorEvent where
  | drop (acceptedFiles : List FileV)
  | clickCompress

/-- One compressor UI step.  `clickCompress` models the synchronous prefix
of `compressPdf`: the `if (!pdfFile) return` guard, the state resets, and
the hand-off of the selected file to the compression pipeline. -/
def compressorStep : CompressorEvent → CompressorState → CompressorState × List FileV
  | CompressorEvent.drop files, s => (onDropCompressor files s, [])
  | CompressorEvent.clickCompress, s =>
    match s.pdfFile with
    | none => (s, [])
    | some f => ({ s with isCompressing := true, error := "", compressedPdf := none }, [f])

/-- Fold one event into an accumulated (state, emitted calls) pair. -/
def compressorFold (acc : CompressorState × List FileV) (e : CompressorEvent) :
    CompressorState × List FileV :=
  let r := compressorStep e acc.1
  (r.1, acc.2 ++ r.2)

/-- Run of a compressor page from its initial state over a sequence of UI
events. -/
def compressorRun (events : List CompressorEvent) : CompressorState × List FileV :=
  events.foldl compressorFold (compressorInit, [])

/-! ### Download filenames

Source: `downloadCompressed` (`pdfFile.name.replace(".pdf", "_compressed.pdf")`)
and `downloadConverted` (`pdfFile.name.replace(".pdf", ".docx")`). -/

/-- Download filename used by the compressor pages. -/
def compressorDownloadName (name : String) : String :=
  jsReplace name ".pdf" "_compressed.pdf"

/-- Download filename used by the converter page. -/
def converterDownloadName (name : String) : String :=
  jsReplace name ".pdf" ".docx"

/-! Concrete inputs used by counterexamples and witnesses. -/

/-- Two fragments whose vertical coordinate is exactly the grouping
sentinel `-1`. -/
def fragSentA : Frag := ⟨0, -1, 0, "a"⟩

/-- Second sentinel-height fragment; same Y as `fragSentA`. -/
def fragSentB : Frag := ⟨5, -1, 0, "b"⟩

/-- An ordinary fragment at the origin. -/
def fragW0 : Frag := ⟨0, 0, 4, "hello"⟩

/-- An ordinary fragment 30 units right of `fragW0`. -/
def fragW1 : Frag := ⟨30, 0, 4, "world"⟩

/-- A fragment 50 units below `fragW0` (next line). -/
def fragW2 : Frag := ⟨0, -50, 4, "next"⟩

/-- Concrete password options with all classes enabled. -/
def pwOpts : PasswordOptions :=
  { length := 16, uppercase := true, lowercase := true, numbers := true,
    symbols := true, easyToSay := false, easyToRead := false }

/-- Concrete password options with length 1, used to evaluate one loop
iteration concretely. -/
def pwOpts1 : PasswordOptions :=
  { length := 1, uppercase := true, lowercase := true, numbers := true,
    symbols := true, easyToSay := false, easyToRead := false }

/-- Concrete password options with every class disabled. -/
def pwOptsNone : PasswordOptions :=
  { length := 16, uppercase := false, lowercase := false, numbers := false,
    symbols := false, easyToSay := false, easyToRead := false }

/-- A concrete random source that always returns 0. -/
def pwRand : Nat → ℚ := fun _ => 0

/-- A concrete API request parameter record. -/
def apiParams : PdfCompressRequest :=
  { file := ⟨"doc.pdf", "application/pdf", 1000⟩, compressionLevel := 50, token := "tok" }

/-- A concrete failing HTTP response. -/
def apiFailResponse : HttpResponse :=
  { ok := false, status := 500, statusText := "Internal Server Error",
    bodyText := "boom", bodyBlob := ⟨0⟩ }

/-- A concrete non-PDF file. -/
def txtFile : FileV := ⟨"notes.txt", "text/plain", 12⟩

/-! ## Theorems -/

/-! ### C2: API client contract -/

/-- C2: the API client's `compressPdf` sends a single POST to
`{API base}/api/pdf/v2/compress` with a multipart body holding exactly the
fields `file` and `compressionLevel` (the integer stringified) and an
`Authorization: Bearer <token>` header; every non-ok response is turned
into a thrown `ApiError` carrying the status, status text and body text in
its message and the response status/statusText in its fields; every ok
response yields the response blob with `originalSize` the input file's
size and `compressedSize` the blob's size. -/
theorem C2_compress_api_contract (apiBase : String) (params : PdfCompressRequest)
    (response : HttpResponse) :
    (compressPdfRequest apiBase params).url = apiBase ++ "/api/pdf/v2/compress" ∧
    (compressPdfRequest apiBase params).method = "POST" ∧
    (compressPdfRequest apiBase params).headers =
      [("Authorization", "Bearer " ++ params.token)] ∧
    (compressPdfRequest apiBase params).body =
      [FormField.fileField "file" params.file,
       FormField.textField "compressionLevel" (toString params.compressionLevel)] ∧
    (response.ok = false →
      compressPdfResult params response =
        Except.error
          { message := "Failed to compress PDF: " ++ toString response.status ++ " "
              ++ response.statusText ++ ". " ++ response.bodyText
            status := response.status
            statusText := response.statusText }) ∧
    (response.ok = true →
      compressPdfResult params response =
        Except.ok
          { blob := response.bodyBlob
            originalSize := params.file.size
            compressedSize := response.bodyBlob.size }) := by
  refine ⟨rfl, rfl, rfl, rfl, ?_, ?_⟩ <;>
    intro h <;> simp [compressPdfResult, h]

/-- Witness for C2 at a concrete failing response. -/
theorem C2_compress_api_contract_witness :
    compressPdfResult apiParams apiFailResponse =
      Except.error
        { message := "Failed to compress PDF: " ++ toString apiFailResponse.status ++ " "
            ++ apiFailResponse.statusText ++ ". " ++ apiFailResponse.bodyText
          status := apiFailResponse.status
          statusText := apiFailResponse.statusText } :=
  (C2_compress_api_contract "http://localhost:8085" apiParams apiFailResponse).2.2.2.2.1 rfl

/-! ### C5 and C10: empty character set handling -/

/-- With all four class toggles disabled the built character set is empty,
whatever the two advanced toggles are. -/
theorem buildCharsetB_all_false :
    ∀ say read : Bool, buildCharsetB false false false false say read = "" := by decide

/-- With at least one class toggle enabled the built character set is
nonempty, whatever the other toggles are. -/
theorem buildCharsetB_ne_empty :
    ∀ lc uc nm sy say read : Bool, (lc || uc || nm || sy) = true →
      (buildCharsetB lc uc nm sy say read).data.length ≠ 0 := by decide

/-- The character set of an option record with some class enabled has
nonzero length. -/
theorem charset_len_ne_zero (o : PasswordOptions)
    (h : o.lowercase = true ∨ o.uppercase = true ∨ o.numbers = true ∨ o.symbols = true) :
    (buildCharset o).data.length ≠ 0 := by
  apply buildCharsetB_ne_empty
  rcases h with h | h | h | h <;> simp [h]

/-- C5: when all four character-class toggles are disabled,
`generatePassword` stores the literal placeholder string and generates no
characters, for every random source. -/
theorem C5_placeholder_on_no_classes (o : PasswordOptions) (rand : Nat → ℚ)
    (hu : o.uppercase = false) (hl : o.lowercase = false)
    (hn : o.numbers = false) (hs : o.symbols = false) :
    generatePassword o rand = "Please select at least one character type" := by
  have hcs : buildCharset o = "" := by
    unfold buildCharset
    rw [hu, hl, hn, hs]
    exact buildCharsetB_all_false o.easyToSay o.easyToRead
  rw [generatePassword, hcs]
  rfl

/-- Witness for C5 at a concrete all-disabled option record. -/
theorem C5_placeholder_witness :
    generatePassword pwOptsNone pwRand = "Please select at least one character type" :=
  C5_placeholder_on_no_classes pwOptsNone pwRand rfl rfl rfl rfl

/-- C10: the character set built by `generatePassword` is empty exactly
when all four character-class toggles are disabled; in particular neither
the easy-to-read variants nor the easy-to-say filter can empty the set of
an enabled class, so the placeholder branch is unreachable whenever some
class is selected. -/
theorem C10_charset_empty_iff (o : PasswordOptions) :
    (buildCharset o).data = [] ↔
      o.uppercase = false ∧ o.lowercase = false ∧ o.numbers = false ∧ o.symbols = false := by
  rcases o with ⟨len, uc, lc, nm, sy, say, read⟩
  simp only [buildCharset]
  revert uc lc nm sy say read
  decide

/-! ### C6: size-reduction clamping -/

/-- C6: both compressor variants store
`max(0, (originalSize - compressedSize) / originalSize * 100)` for
display, so the displayed reduction is never negative, even when the
compressed result is larger than the original. -/
theorem C6_reduction_clamped (originalSize compressedSize : ℚ) :
    storedReduction originalSize compressedSize =
      max 0 ((originalSize - compressedSize) / originalSize * 100) ∧
    0 ≤ storedReduction originalSize compressedSize ∧
    (0 < originalSize → originalSize < compressedSize →
      storedReduction originalSize compressedSize = 0) := by
  refine ⟨rfl, le_max_left _ _, fun ho hc => ?_⟩
  have h1 : originalSize - compressedSize ≤ 0 := by linarith
  have h2 : (originalSize - compressedSize) / originalSize ≤ 0 :=
    div_nonpos_of_nonpos_of_nonneg h1 (le_of_lt ho)
  have h3 : compressionReduction originalSize compressedSize ≤ 0 := by
    unfold compressionReduction
    nlinarith
  exact max_eq_left h3

/-- Witness for C6 at a compressed size larger than the original. -/
theorem C6_reduction_clamped_witness : storedReduction 10 12 = 0 :=
  (C6_reduction_clamped 10 12).2.2 (by norm_num) (by norm_num)

/-! ### C9: download filenames -/

/-- Counterexample to C9 as stated: for the name `a.pdf.pdf`, JavaScript
`replace(".pdf", ...)` rewrites the first occurrence of `.pdf`, not the
trailing suffix, so neither page produces the name the claim describes. -/
theorem C9_replace_first_counterexample :
    compressorDownloadName "a.pdf.pdf" = "a_compressed.pdf.pdf" ∧
    compressorDownloadName "a.pdf.pdf" ≠ "a.pdf" ++ "_compressed.pdf" ∧
    converterDownloadName "a.pdf.pdf" = "a.docx.pdf" ∧
    converterDownloadName "a.pdf.pdf" ≠ "a.pdf" ++ ".docx" := by
  refine ⟨by decide, by decide, by decide, by decide⟩

/-- When `.pdf` does not occur in `stem`, the first occurrence of `.pdf`
in `stem ++ ".pdf"` is the trailing suffix, so first-occurrence
replacement rewrites exactly that suffix. -/
theorem replaceFirstList_clean_stem (repl : List Char) (stem : List Char)
    (h : hasSub ['.', 'p', 'd', 'f'] stem = false) :
    replaceFirstList ['.', 'p', 'd', 'f'] repl (stem ++ ['.', 'p', 'd', 'f']) =
      stem ++ repl := by
  induction stem with
  | nil => simp [replaceFirstList, startsWithL]
  | cons c rest ih =>
    rw [hasSub, Bool.or_eq_false_iff] at h
    obtain ⟨h1, h2⟩ := h
    have hpre : startsWithL ['.', 'p', 'd', 'f'] (c :: (rest ++ ['.', 'p', 'd', 'f'])) = false := by
      rcases rest with _ | ⟨a, _ | ⟨b, _ | ⟨d, t⟩⟩⟩
      · simp [startsWithL]
      · simp [startsWithL]
      · simp [startsWithL]
      · simp only [startsWithL, List.cons_append] at h1 ⊢
        simpa using h1
    rw [List.cons_append, replaceFirstList, hpre]
    simp only [Bool.false_eq_true, if_false]
    rw [ih h2]
    simp

/-- String-level form of `replaceFirstList_clean_stem`. -/
theorem jsReplace_clean_stem (stem repl : String)
    (h : hasSub ['.', 'p', 'd', 'f'] stem.data = false) :
    jsReplace (stem ++ ".pdf") ".pdf" repl = stem ++ repl := by
  have hd : (".pdf" : String).data = ['.', 'p', 'd', 'f'] := rfl
  unfold jsReplace
  rw [String.data_append, hd, replaceFirstList_clean_stem repl.data stem.data h]
  cases stem with
  | mk l =>
    cases repl with
    | mk m => rfl

/-- C9 (amended): the download filename is obtained by replacing the
first occurrence of `.pdf` in the uploaded name; whenever `.pdf` occurs
only as the trailing suffix (in particular for every ordinary
`<stem>.pdf` name whose stem does not itself contain `.pdf`), this equals
removing the trailing `.pdf` and appending `_compressed.pdf`
(compressor) or `.docx` (converter), with no other part changed. -/
theorem C9_download_name_amended (stem : String)
    (h : hasSub ['.', 'p', 'd', 'f'] stem.data = false) :
    compressorDownloadName (stem ++ ".pdf") = stem ++ "_compressed.pdf" ∧
    converterDownloadName (stem ++ ".pdf") = stem ++ ".docx" :=
  ⟨jsReplace_clean_stem stem "_compressed.pdf" h, jsReplace_clean_stem stem ".docx" h⟩

/-- Witness for the amended C9 at the ordinary name `report.pdf`. -/
theorem C9_download_name_witness :
    compressorDownloadName ("report" ++ ".pdf") = "report" ++ "_compressed.pdf" ∧
    converterDownloadName ("report" ++ ".pdf") = "report" ++ ".docx" :=
  C9_download_name_amended "report" (by decide)

/-! ### C1: line grouping, sorting and text assembly -/

/-- As long as the running line is nonempty and its reference Y is not the
sentinel `-1`, the code's grouping loop agrees with the claim's
tolerance-only grouping. -/
theorem groupGo_eq_claimGroupGo (items : List Frag) :
    ∀ (currentY : ℚ) (cur : List Frag), cur ≠ [] → currentY ≠ -1 →
      (∀ f ∈ items, f.y ≠ -1) →
      groupGo items currentY cur = claimGroupGo items currentY cur := by
  induction items with
  | nil =>
    intro currentY cur hc _ _
    simp [groupGo, claimGroupGo, hc]
  | cons item rest ih =>
    intro currentY cur hc hy0 hall
    have hy : item.y ≠ -1 := hall item (List.mem_cons_self item rest)
    have hrest : ∀ f ∈ rest, f.y ≠ -1 := fun f hf => hall f (List.mem_cons_of_mem item hf)
    by_cases hgap : mathAbs (item.y - currentY) ≤ 2
    · have hcond : ¬(currentY = -1 ∨ mathAbs (item.y - currentY) > 2) := by
        push_neg
        exact ⟨hy0, hgap⟩
      rw [groupGo, if_neg hcond, claimGroupGo, if_pos hgap]
      exact ih currentY (cur ++ [item]) (by simp) hy0 hrest
    · have hcond : currentY = -1 ∨ mathAbs (item.y - currentY) > 2 :=
        Or.inr (lt_of_not_le hgap)
      rw [groupGo, if_pos hcond, if_neg hc, claimGroupGo, if_neg hgap]
      rw [ih item.y [item] (by simp) hy hrest]

/-- Every fragment of a produced line comes from the running line or from
the remaining input. -/
theorem mem_groupGo (items : List Frag) :
    ∀ (currentY : ℚ) (cur line : List Frag), line ∈ groupGo items currentY cur →
      ∀ f ∈ line, f ∈ cur ∨ f ∈ items := by
  induction items with
  | nil =>
    intro currentY cur line hline f hf
    rw [groupGo] at hline
    by_cases hc : cur = []
    · rw [if_pos hc] at hline
      simp at hline
    · rw [if_neg hc] at hline
      simp at hline
      subst hline
      exact Or.inl hf
  | cons item rest ih =>
    intro currentY cur line hline f hf
    rw [groupGo] at hline
    by_cases hcond : currentY = -1 ∨ mathAbs (item.y - currentY) > 2
    · rw [if_pos hcond] at hline
      by_cases hc : cur = []
      · rw [if_pos hc] at hline
        rcases ih item.y [item] line hline f hf with h | h
        · simp at h
          rw [h]
          exact Or.inr (List.mem_cons_self item rest)
        · exact Or.inr (List.mem_cons_of_mem item h)
      · rw [if_neg hc] at hline
        rcases List.mem_cons.mp hline with h | h
        · subst h
          exact Or.inl hf
        · rcases ih item.y [item] line h f hf with h2 | h2
          · simp at h2
            rw [h2]
            exact Or.inr (List.mem_cons_self item rest)
          · exact Or.inr (List.mem_cons_of_mem item h2)
    · rw [if_neg hcond] at hline
      rcases ih currentY (cur ++ [item]) line hline f hf with h | h
      · rcases List.mem_append.mp h with h2 | h2
        · exact Or.inl h2
        · simp at h2
          rw [h2]
          exact Or.inr (List.mem_cons_self item rest)
      · exact Or.inr (List.mem_cons_of_mem item h)

/-- Every fragment of a produced line comes from the page's items. -/
theorem mem_groupLines (items : List Frag) (line : List Frag)
    (hline : line ∈ groupLines items) : ∀ f ∈ line, f ∈ items := by
  intro f hf
  rcases mem_groupGo items (-1) [] line hline f hf with h | h
  · simp at h
  · exact h

/-- As long as a previous fragment exists and its recorded end position is
not the sentinel `-1`, the code's separator insertion agrees with the
claim's gap rule. -/
theorem buildGo_eq_claimBuildGo (rest : List Frag) :
    ∀ (idx : Nat) (lastX : ℚ) (acc : String), 0 < idx → lastX ≠ -1 →
      (∀ f ∈ rest, f.x + f.width ≠ -1) →
      buildGo rest idx lastX acc = claimBuildGo rest lastX acc := by
  induction rest with
  | nil => intro idx lastX acc _ _ _; rfl
  | cons item rest2 ih =>
    intro idx lastX acc hidx hlast hall
    rw [buildGo, claimBuildGo]
    have hsep :
        (if lastX ≠ -1 ∧ item.x - lastX > 20 then "\t"
         else if 0 < idx then " " else "") =
        (if item.x - lastX > 20 then "\t" else " ") := by
      by_cases hg : item.x - lastX > 20
      · rw [if_pos ⟨hlast, hg⟩, if_pos hg]
      · rw [if_neg (fun hand => hg hand.2), if_pos hidx, if_neg hg]
    rw [hsep]
    exact ih (idx + 1) (item.x + item.width)
      (acc ++ (if item.x - lastX > 20 then "\t" else " ") ++ item.str)
      (Nat.succ_pos idx) (hall item (List.mem_cons_self item rest2))
      (fun f hf => hall f (List.mem_cons_of_mem item hf))

/-- When no fragment of the line has `x + width = -1`, the assembled line
text matches the claim's description. -/
theorem buildLineText_eq_claimBuildText (line : List Frag)
    (h : ∀ f ∈ line, f.x + f.width ≠ -1) :
    buildLineText line = claimBuildText line := by
  cases line with
  | nil => rfl
  | cons item rest =>
    rw [buildLineText, buildGo, claimBuildText]
    have hsep :
        (if (-1 : ℚ) ≠ -1 ∧ item.x - (-1) > 20 then "\t"
         else if 0 < (0 : Nat) then " " else "") = "" := by
      rw [if_neg (fun hand => hand.1 rfl), if_neg (lt_irrefl 0)]
    rw [hsep]
    have hacc : ("" : String) ++ "" ++ item.str = item.str := by simp
    rw [hacc]
    exact buildGo_eq_claimBuildGo rest 1 (item.x + item.width) item.str
      (Nat.one_pos) (h item (List.mem_cons_self item rest))
      (fun f hf => h f (List.mem_cons_of_mem item hf))

/-- C1 (amended): provided no fragment has vertical coordinate exactly
`-1` (the grouping loop's "no current line" sentinel, which otherwise
forces a line break after any such line head regardless of tolerance) and
no fragment has `x + width` exactly `-1` (the assembly loop's "no
previous fragment" sentinel, which otherwise forces a space regardless of
gap), the converter behaves as the claim states: fragments are grouped by
the 2-unit vertical tolerance against each line's first fragment, each
line is sorted in ascending order of horizontal coordinate before text
assembly, and consecutive fragments are joined by a tab when the gap from
the previous fragment's end exceeds 20 and by a single space otherwise. -/
theorem C1_line_assembly_amended (items : List Frag)
    (hy : ∀ f ∈ items, f.y ≠ -1)
    (hw : ∀ f ∈ items, f.x + f.width ≠ -1) :
    groupLines items = claimGroup items ∧
    ∀ line ∈ groupLines items,
      List.Sorted fragLe (sortLine line) ∧
      buildLineText (sortLine line) = claimBuildText (sortLine line) := by
  constructor
  · cases items with
    | nil => rfl
    | cons item rest =>
      have hcond : ((-1 : ℚ) = -1 ∨ mathAbs (item.y - (-1)) > 2) := Or.inl rfl
      rw [groupLines, groupGo, if_pos hcond, if_pos rfl, claimGroup]
      exact groupGo_eq_claimGroupGo rest item.y [item] (by simp)
        (hy item (List.mem_cons_self item rest))
        (fun f hf => hy f (List.mem_cons_of_mem item hf))
  · intro line hline
    constructor
    · exact List.sorted_insertionSort fragLe line
    · apply buildLineText_eq_claimBuildText
      intro f hf
      have hmem : f ∈ line := (List.perm_insertionSort fragLe line).mem_iff.mp hf
      exact hw f (mem_groupLines items line hline f hmem)

/-- Counterexample to C1 as stated: two fragments with equal vertical
coordinate `-1` are split into two lines although the claim's tolerance
condition (`|Δy| ≤ 2`) says the second joins the first, because the
vertical coordinate collides with the loop's `currentY === -1` sentinel. -/
theorem C1_sentinel_counterexample :
    mathAbs (fragSentB.y - fragSentA.y) ≤ 2 ∧
    groupLines [fragSentA, fragSentB] = [[fragSentA], [fragSentB]] := by
  constructor
  · show mathAbs ((-1 : ℚ) - (-1)) ≤ 2
    norm_num [mathAbs]
  · have h1 : ((-1 : ℚ) = -1 ∨ mathAbs (fragSentA.y - (-1)) > 2) := Or.inl rfl
    have h2 : (fragSentA.y = -1 ∨ mathAbs (fragSentB.y - fragSentA.y) > 2) := Or.inl rfl
    rw [groupLines, groupGo, if_pos h1, if_pos rfl, groupGo, if_pos h2,
      if_neg (by simp : ¬([fragSentA] : List Frag) = []), groupGo,
      if_neg (by simp : ¬([fragSentB] : List Frag) = [])]

/-- Witness for the amended C1 at a sentinel-free page. -/
theorem C1_line_assembly_witness :
    groupLines [fragW0, fragW1, fragW2] = claimGroup [fragW0, fragW1, fragW2] :=
  (C1_line_assembly_amended [fragW0, fragW1, fragW2]
    (by decide)
    (by intro f hf; fin_cases hf <;> norm_num [fragW0, fragW1, fragW2])).1


/-! ### C8: paragraph spacing levels -/

/-- C8: every emitted line paragraph carries one of exactly the three
spacing values 100, 200 and 300; the value is chosen from the vertical
gap between the line and the next line's first fragment by the claim's
thresholds (100 for a gap of at most 20, 200 for a gap in (20, 40], 300
for a gap above 40), and a line with no following line on the page gets
100. -/
theorem C8_spacing_levels :
    (∀ (lines : List (List Frag)), ∀ p ∈ convertLines lines,
      p.spacingAfter = 100 ∨ p.spacingAfter = 200 ∨ p.spacingAfter = 300) ∧
    (∀ (line : List Frag) (rest : List (List Frag)), line ≠ [] →
      jsTrim (buildLineText (sortLine line)) ≠ "" →
      convertLines (line :: rest) =
        ⟨jsTrim (buildLineText (sortLine line)), claimSpacing line rest⟩
          :: convertLines rest) := by
  constructor
  · intro lines
    induction lines with
    | nil => intro p hp; simp [convertLines] at hp
    | cons line rest ih =>
      intro p hp
      simp only [convertLines] at hp
      split_ifs at hp with h1 h2
      · exact ih p hp
      · exact ih p hp
      · rcases List.mem_cons.mp hp with h | h
        · rw [h]
          rcases rest with _ | ⟨nextLine, rtail⟩
          · exact Or.inl rfl
          · by_cases h3 : nextLine = []
            · simp only [if_pos h3]
              exact Or.inl trivial
            · simp only [if_neg h3]
              set gap := mathAbs (((sortLine line).headD defaultFrag).y -
                (nextLine.headD defaultFrag).y) with hgap
              by_cases h4 : gap > 40
              · simp only [if_pos h4]
                exact Or.inr (Or.inr trivial)
              · simp only [if_neg h4]
                by_cases h5 : gap > 20
                · simp only [if_pos h5]
                  exact Or.inr (Or.inl trivial)
                · simp only [if_neg h5]
                  exact Or.inl trivial
        · exact ih p h
  · intro line rest h1 h2
    simp only [convertLines, if_neg h1, if_neg h2]
    congr 1
    congr 1
    rcases rest with _ | ⟨nextLine, rtail⟩
    · rfl
    · simp only [claimSpacing]
      by_cases h3 : nextLine = []
      · rw [if_pos h3, if_pos h3]
      · rw [if_neg h3, if_neg h3]
        set gap := mathAbs (((sortLine line).headD defaultFrag).y -
          (nextLine.headD defaultFrag).y) with hgap
        by_cases h4 : gap > 40
        · rw [if_pos h4, if_neg (by linarith : ¬gap ≤ 20), if_neg (by linarith : ¬gap ≤ 40)]
        · rw [if_neg h4]
          by_cases h5 : gap > 20
          · rw [if_pos h5, if_neg (by linarith : ¬gap ≤ 20), if_pos (by linarith : gap ≤ 40)]
          · rw [if_neg h5, if_pos (by linarith : gap ≤ 20)]

/-- Witness for C8 at a concrete two-line page. -/
theorem C8_spacing_levels_witness :
    convertLines [[fragW0], [fragW2]] =
      ⟨jsTrim (buildLineText (sortLine [fragW0])), claimSpacing [fragW0] [[fragW2]]⟩
        :: convertLines [[fragW2]] :=
  C8_spacing_levels.2 [fragW0] [[fragW2]] (by decide) (by decide)

/-! ### C3 and C4: password length and character provenance -/

/-- A `Math.random` value in `[0, 1)` scaled by the charset length and
floored is a valid index. -/
theorem genLoop_index_lt (charset : String) (r : ℚ) (hr0 : 0 ≤ r) (hr1 : r < 1)
    (hlen : charset.data.length ≠ 0) :
    0 ≤ ⌊r * (charset.data.length : ℚ)⌋ ∧
    (⌊r * (charset.data.length : ℚ)⌋).toNat < charset.data.length := by
  have hpos : (0 : ℚ) < (charset.data.length : ℚ) := by
    exact_mod_cast Nat.pos_of_ne_zero hlen
  have h0 : 0 ≤ ⌊r * (charset.data.length : ℚ)⌋ :=
    Int.floor_nonneg.mpr (mul_nonneg hr0 (le_of_lt hpos))
  have h1 : ⌊r * (charset.data.length : ℚ)⌋ < (charset.data.length : ℤ) := by
    apply Int.floor_lt.mpr
    push_cast
    calc r * (charset.data.length : ℚ) < 1 * (charset.data.length : ℚ) :=
          mul_lt_mul_of_pos_right hr1 hpos
      _ = (charset.data.length : ℚ) := one_mul _
  exact ⟨h0, by omega⟩

/-- In-range JavaScript indexing yields a one-character string drawn from
the indexed string. -/
theorem charAtI_in_range (s : String) (i : Int) (h0 : 0 ≤ i)
    (h1 : i.toNat < s.data.length) :
    (charAtI s i).length = 1 ∧ ∀ c ∈ (charAtI s i).data, c ∈ s.data := by
  rw [charAtI, if_neg (not_lt.mpr h0)]
  have hget : s.data.get? i.toNat = some (s.data.get ⟨i.toNat, h1⟩) := List.get?_eq_get h1
  rw [hget]
  constructor
  · rfl
  · intro c hc
    have hc2 : c ∈ [s.data.get ⟨i.toNat, h1⟩] := hc
    simp at hc2
    rw [hc2]
    exact List.get_mem s.data i.toNat h1

/-- Each loop iteration appends exactly one character, so the loop output
has the length of the accumulator plus the iteration count. -/
theorem genLoop_length (charset : String) (rand : Nat → ℚ)
    (hlen : charset.data.length ≠ 0) (hrand : ∀ i, 0 ≤ rand i ∧ rand i < 1) :
    ∀ (n i : Nat) (acc : String), (genLoop charset rand n i acc).length = acc.length + n := by
  intro n
  induction n with
  | zero =>
    intro i acc
    rw [genLoop]
    omega
  | succ n ih =>
    intro i acc
    rw [genLoop, ih (i + 1)]
    have hb := genLoop_index_lt charset (rand i) (hrand i).1 (hrand i).2 hlen
    have hc := charAtI_in_range charset ⌊rand i * (charset.data.length : ℚ)⌋ hb.1 hb.2
    rw [String.length_append, hc.1]
    omega

/-- Every character produced by the loop comes from the accumulator or
from the charset. -/
theorem mem_genLoop (charset : String) (rand : Nat → ℚ)
    (hlen : charset.data.length ≠ 0) (hrand : ∀ i, 0 ≤ rand i ∧ rand i < 1) :
    ∀ (n i : Nat) (acc : String), ∀ c ∈ (genLoop charset rand n i acc).data,
      c ∈ acc.data ∨ c ∈ charset.data := by
  intro n
  induction n with
  | zero =>
    intro i acc c hc
    rw [genLoop] at hc
    exact Or.inl hc
  | succ n ih =>
    intro i acc c hc
    rw [genLoop] at hc
    rcases ih (i + 1) _ c hc with h | h
    · rw [String.data_append] at h
      rcases List.mem_append.mp h with h2 | h2
      · exact Or.inl h2
      · have hb := genLoop_index_lt charset (rand i) (hrand i).1 (hrand i).2 hlen
        have hch := charAtI_in_range charset ⌊rand i * (charset.data.length : ℚ)⌋ hb.1 hb.2
        exact Or.inr (hch.2 c h2)
    · exact Or.inr h

/-- C3: for every option record with at least one character class enabled
and every sequence of values produced by the random source (each in
`[0, 1)`, as `Math.random` guarantees), the generated password has length
exactly the configured length option. -/
theorem C3_password_length (o : PasswordOptions) (rand : Nat → ℚ)
    (henabled : o.lowercase = true ∨ o.uppercase = true ∨ o.numbers = true ∨ o.symbols = true)
    (hrand : ∀ i, 0 ≤ rand i ∧ rand i < 1) :
    (generatePassword o rand).length = o.length := by
  have hcs : (buildCharset o).data.length ≠ 0 := charset_len_ne_zero o henabled
  rw [generatePassword, if_neg hcs]
  have h := genLoop_length (buildCharset o) rand hcs hrand o.length 0 ""
  rw [h]
  simp

/-- Witness for C3 at a concrete option record and random source. -/
theorem C3_password_length_witness :
    (generatePassword pwOpts pwRand).length = pwOpts.length :=
  C3_password_length pwOpts pwRand (Or.inl rfl)
    (fun _ => ⟨by norm_num [pwRand], by norm_num [pwRand]⟩)

/-- Splitting membership in a conditionally extended character set. -/
theorem mem_ite_append {b : Bool} {c : Char} {s t : String}
    (h : c ∈ (if b = true then s ++ t else s).data) :
    c ∈ s.data ∨ (b = true ∧ c ∈ t.data) := by
  cases b with
  | false =>
    simp at h
    exact Or.inl h
  | true =>
    rw [if_pos rfl, String.data_append] at h
    rcases List.mem_append.mp h with h2 | h2
    · exact Or.inl h2
    · exact Or.inr ⟨rfl, h2⟩

/-- Every character of the built charset belongs to an enabled class (in
its easy-to-read variant) and survives the easy-to-say filter. -/
theorem mem_buildCharsetB {lc uc nm sy say read : Bool} {c : Char}
    (h : c ∈ (buildCharsetB lc uc nm sy say read).data) :
    ((lc = true ∧ c ∈ (lowercaseChars read).data) ∨
     (uc = true ∧ c ∈ (uppercaseChars read).data) ∨
     (nm = true ∧ c ∈ (numberChars read).data) ∨
     (sy = true ∧ c ∈ (symbolChars read).data)) ∧
    (say = true → hardToSayChar c = false) := by
  simp only [buildCharsetB, applyEasyToSay] at h
  have hsplit :
      c ∈ (if sy = true
            then (if nm = true
                    then (if uc = true
                            then (if lc = true then "" ++ lowercaseChars read else "")
                                   ++ uppercaseChars read
                            else (if lc = true then "" ++ lowercaseChars read else ""))
                           ++ numberChars read
                    else (if uc = true
                            then (if lc = true then "" ++ lowercaseChars read else "")
                                   ++ uppercaseChars read
                            else (if lc = true then "" ++ lowercaseChars read else "")))
                   ++ symbolChars read
            else (if nm = true
                    then (if uc = true
                            then (if lc = true then "" ++ lowercaseChars read else "")
                                   ++ uppercaseChars read
                            else (if lc = true then "" ++ lowercaseChars read else ""))
                           ++ numberChars read
                    else (if uc = true
                            then (if lc = true then "" ++ lowercaseChars read else "")
                                   ++ uppercaseChars read
                            else (if lc = true then "" ++ lowercaseChars read else "")))).data ∧
      (say = true → hardToSayChar c = false) := by
    cases say with
    | false =>
      refine ⟨by simpa using h, fun hf => by cases hf⟩
    | true =>
      rw [if_pos rfl] at h
      have h2 : c ∈ List.filter (fun c => !hardToSayChar c) _ := h
      rw [List.mem_filter] at h2
      refine ⟨h2.1, fun _ => by simpa using h2.2⟩
  obtain ⟨h4, hsay⟩ := hsplit
  rcases mem_ite_append h4 with h3 | hsy
  · rcases mem_ite_append h3 with h2 | hnm
    · rcases mem_ite_append h2 with h1 | huc
      · rcases mem_ite_append h1 with h0 | hlc
        · simp at h0
        · exact ⟨Or.inl hlc, hsay⟩
      · exact ⟨Or.inr (Or.inl huc), hsay⟩
    · exact ⟨Or.inr (Or.inr (Or.inl hnm)), hsay⟩
  · exact ⟨Or.inr (Or.inr (Or.inr hsy)), hsay⟩

/-- C4: with at least one class enabled and a random source ranging in
`[0, 1)`, every character of the generated password belongs to the set of
an enabled class (as restricted by the easy-to-read variants), and when
the easy-to-say filter is on, none of the filtered characters `0 O o I l
1` ever appears; characters of disabled classes never appear. -/
theorem C4_password_charset (o : PasswordOptions) (rand : Nat → ℚ)
    (henabled : o.lowercase = true ∨ o.uppercase = true ∨ o.numbers = true ∨ o.symbols = true)
    (hrand : ∀ i, 0 ≤ rand i ∧ rand i < 1) :
    ∀ c ∈ (generatePassword o rand).data,
      ((o.lowercase = true ∧ c ∈ (lowercaseChars o.easyToRead).data) ∨
       (o.uppercase = true ∧ c ∈ (uppercaseChars o.easyToRead).data) ∨
       (o.numbers = true ∧ c ∈ (numberChars o.easyToRead).data) ∨
       (o.symbols = true ∧ c ∈ (symbolChars o.easyToRead).data)) ∧
      (o.easyToSay = true → hardToSayChar c = false) := by
  intro c hc
  have hcs : (buildCharset o).data.length ≠ 0 := charset_len_ne_zero o henabled
  rw [generatePassword, if_neg hcs] at hc
  rcases mem_genLoop (buildCharset o) rand hcs hrand o.length 0 "" c hc with h | h
  · simp at h
  · rw [buildCharset] at h
    exact mem_buildCharsetB h

/-- The single character generated for `pwOpts1` with the all-zero random
source is the first charset character `a`. -/
theorem generatePassword_pwOpts1_mem :
    'a' ∈ (generatePassword pwOpts1 pwRand).data := by
  have hfloor : ⌊pwRand 0 * ((buildCharset pwOpts1).data.length : ℚ)⌋ = 0 := by
    rw [show pwRand 0 = 0 from rfl, zero_mul]
    exact Int.floor_zero
  rw [generatePassword, if_neg (by decide)]
  show 'a' ∈ (genLoop (buildCharset pwOpts1) pwRand (0 + 1) 0 "").data
  rw [genLoop, hfloor, genLoop]
  decide

/-- Witness for C4 at a concrete option record, random source and
generated character. -/
theorem C4_password_charset_witness :
    (pwOpts1.lowercase = true ∧ 'a' ∈ (lowercaseChars pwOpts1.easyToRead).data) ∨
    (pwOpts1.uppercase = true ∧ 'a' ∈ (uppercaseChars pwOpts1.easyToRead).data) ∨
    (pwOpts1.numbers = true ∧ 'a' ∈ (numberChars pwOpts1.easyToRead).data) ∨
    (pwOpts1.symbols = true ∧ 'a' ∈ (symbolChars pwOpts1.easyToRead).data) :=
  (C4_password_charset pwOpts1 pwRand (Or.inl rfl)
    (fun _ => ⟨by norm_num [pwRand], by norm_num [pwRand]⟩)
    'a' generatePassword_pwOpts1_mem).1

/-! ### C7: file-type validation and processing guards -/

/-- Invariant run lemma for the converter page: starting from a state
whose selected file (if any) is a PDF and an emitted-call list of PDFs,
every call ever emitted is a PDF. -/
theorem converter_calls_pdf (events : List ConverterEvent) :
    ∀ (s : ConverterState) (calls : List FileV),
      (∀ g, s.pdfFile = some g → g.type = "application/pdf") →
      (∀ f ∈ calls, f.type = "application/pdf") →
      ∀ f ∈ (events.foldl converterFold (s, calls)).2, f.type = "application/pdf" := by
  induction events with
  | nil =>
    intro s calls _ hc f hf
    exact hc f hf
  | cons e rest ih =>
    intro s calls hs hc f hf
    rw [List.foldl_cons] at hf
    rcases e with files | _
    · refine ih _ _ ?_ ?_ f hf
      · intro g hg
        rcases files with _ | ⟨file, fs⟩
        · exact hs g hg
        · by_cases ht : file.type = "application/pdf"
          · simp only [converterFold, converterStep, onDropConverter, if_pos ht] at hg
            obtain rfl : file = g := Option.some_inj.mp hg
            exact ht
          · simp only [converterFold, converterStep, onDropConverter, if_neg ht] at hg
            exact hs g hg
      · intro f2 hf2
        simp only [converterFold, converterStep] at hf2
        rw [List.append_nil] at hf2
        exact hc f2 hf2
    · refine ih _ _ ?_ ?_ f hf
      · intro g hg
        rcases hpdf : s.pdfFile with _ | f0
        · simp only [converterFold, converterStep, hpdf] at hg
          cases hg
        · simp only [converterFold, converterStep, hpdf] at hg
          obtain rfl : f0 = g := Option.some_inj.mp hg
          exact hs f0 hpdf
      · intro f2 hf2
        rcases hpdf : s.pdfFile with _ | f0
        · simp only [converterFold, converterStep, hpdf, List.append_nil] at hf2
          exact hc f2 hf2
        · simp only [converterFold, converterStep, hpdf] at hf2
          rcases List.mem_append.mp hf2 with h | h
          · exact hc f2 h
          · have : f2 = f0 := by simpa using h
            rw [this]
            exact hs f0 hpdf

/-- Invariant run lemma for the compressor pages: starting from a state
whose selected file (if any) is a PDF and an emitted-call list of PDFs,
every call ever emitted is a PDF. -/
theorem compressor_calls_pdf (events : List CompressorEvent) :
    ∀ (s : CompressorState) (calls : List FileV),
      (∀ g, s.pdfFile = some g → g.type = "application/pdf") →
      (∀ f ∈ calls, f.type = "application/pdf") →
      ∀ f ∈ (events.foldl compressorFold (s, calls)).2, f.type = "application/pdf" := by
  induction events with
  | nil =>
    intro s calls _ hc f hf
    exact hc f hf
  | cons e rest ih =>
    intro s calls hs hc f hf
    rw [List.foldl_cons] at hf
    rcases e with files | _
    · refine ih _ _ ?_ ?_ f hf
      · intro g hg
        rcases files with _ | ⟨file, fs⟩
        · exact hs g hg
        · by_cases ht : file.type = "application/pdf"
          · simp only [compressorFold, compressorStep, onDropCompressor, if_pos ht] at hg
            obtain rfl : file = g := Option.some_inj.mp hg
            exact ht
          · simp only [compressorFold, compressorStep, onDropCompressor, if_neg ht] at hg
            exact hs g hg
      · intro f2 hf2
        simp only [compressorFold, compressorStep] at hf2
        rw [List.append_nil] at hf2
        exact hc f2 hf2
    · refine ih _ _ ?_ ?_ f hf
      · intro g hg
        rcases hpdf : s.pdfFile with _ | f0
        · simp only [compressorFold, compressorStep, hpdf] at hg
          cases hg
        · simp only [compressorFold, compressorStep, hpdf] at hg
          obtain rfl : f0 = g := Option.some_inj.mp hg
          exact hs f0 hpdf
      · intro f2 hf2
        rcases hpdf : s.pdfFile with _ | f0
        · simp only [compressorFold, compressorStep, hpdf, List.append_nil] at hf2
          exact hc f2 hf2
        · simp only [compressorFold, compressorStep, hpdf] at hf2
          rcases List.mem_append.mp hf2 with h | h
          · exact hc f2 h
          · have h2 : f2 = f0 := by simpa using h
            rw [h2]
            exact hs f0 hpdf

/-- C7: dropping a file whose declared MIME type is not
`application/pdf` on any PDF page only sets the error message `Please
upload a valid PDF file` and invokes no processing; along every UI event
sequence from the initial state, every file handed to the
parsing/conversion/compression pipeline has type `application/pdf` and is
only handed over by an explicit click event. -/
theorem C7_onDrop_validation :
    (∀ (f : FileV) (rest : List FileV) (s : ConverterState),
      f.type ≠ "application/pdf" →
      converterStep (ConverterEvent.drop (f :: rest)) s =
        ({ s with error := "Please upload a valid PDF file" }, [])) ∧
    (∀ (f : FileV) (rest : List FileV) (s : CompressorState),
      f.type ≠ "application/pdf" →
      compressorStep (CompressorEvent.drop (f :: rest)) s =
        ({ s with error := "Please upload a valid PDF file" }, [])) ∧
    (∀ (events : List ConverterEvent),
      ∀ f ∈ (converterRun events).2, f.type = "application/pdf") ∧
    (∀ (events : List CompressorEvent),
      ∀ f ∈ (compressorRun events).2, f.type = "application/pdf") := by
  refine ⟨?_, ?_, ?_, ?_⟩
  · intro f rest s h
    simp [converterStep, onDropConverter, if_neg h]
  · intro f rest s h
    simp [compressorStep, onDropCompressor, if_neg h]
  · intro events f hf
    refine converter_calls_pdf events converterInit [] ?_ ?_ f hf
    · intro g hg
      cases hg
    · intro g hg
      cases hg
  · intro events f hf
    refine compressor_calls_pdf events compressorInit [] ?_ ?_ f hf
    · intro g hg
      cases hg
    · intro g hg
      cases hg

/-- Witness for C7 at a concrete non-PDF drop. -/
theorem C7_onDrop_validation_witness :
    converterStep (ConverterEvent.drop [txtFile]) converterInit =
      ({ converterInit with error := "Please upload a valid PDF file" }, []) :=
  C7_onDrop_validation.1 txtFile [] converterInit (by decide)
